import Mathlib

/-!
Shallow embedding of the Mandelbrot renderer in `src/src/mandelbrot.rs`
(`visions_of_mandelbrot`).  Machine floats (`f64`, `f32`) are modelled as
exact rationals where the code only performs field arithmetic, and as real
numbers where the code uses `sqrt`, `powf` and logarithms; `usize`/loop
counters are modelled as `Nat`.  Fallible indexing is modelled with list
`getD`.  Every definition follows the Rust source line by line; deviations
forced by the model (total division, exact arithmetic) are noted in place.
-/

namespace VisionsOfMandelbrot

/-- Linear range remapping, from `normalize` (mandelbrot.rs lines 4-6):
`(((n - r_min) / (r_max - r_min)) * (t_max - t_min)) + t_min`.
Rational division is total (`x / 0 = 0`) where IEEE division would give
`NaN`/`inf`; all theorems that depend on the divisor restrict to the
nondegenerate case. -/
def normalize (n rMin rMax tMin tMax : ℚ) : ℚ :=
  (((n - rMin) / (rMax - rMin)) * (tMax - tMin)) + tMin

/-- Pixel-to-plane mapping as performed inside `test_pixel`
(mandelbrot.rs lines 240-254): `x0 = normalize(px, 0, width - 1, x_scale_min,
x_scale_max)` and likewise for `y0`.  `width - 1` is `usize` subtraction,
modelled by truncated `Nat` subtraction. -/
def toPlane (px py w h : ℕ) (xmin xmax ymin ymax : ℚ) : ℚ × ℚ :=
  (normalize px 0 ((w - 1 : ℕ) : ℚ) xmin xmax,
   normalize py 0 ((h - 1 : ℕ) : ℚ) ymin ymax)

/-- A linear-sRGB color with three channels, as in the `palette` crate's
`LinSrgb` (here over exact rationals; the crate stores `f32`). -/
structure LinSrgb where
  red : ℚ
  green : ℚ
  blue : ℚ
deriving DecidableEq

/-- Channelwise linear interpolation between two colors, as performed by the
`palette` crate's gradient inside one segment. -/
def lerpColor (a b : LinSrgb) (f : ℚ) : LinSrgb :=
  ⟨a.red + (b.red - a.red) * f,
   a.green + (b.green - a.green) * f,
   a.blue + (b.blue - a.blue) * f⟩

/-- Modelled from the spec: the `palette` crate's `Gradient::get` walks the
ordered `(position, color)` stops, clamping below the first stop and above the
last stop and linearly interpolating inside each segment (spec section 4.3:
positions are relative weights, with clamping beyond the first/last stop).
This is the tail walk from the second stop on, carrying the previous stop. -/
def gradientGetAux (p0 : ℚ) (c0 : LinSrgb) : List (ℚ × LinSrgb) → ℚ → LinSrgb
  | [], _ => c0
  | (p1, c1) :: rest, t =>
    if t ≤ p1 then lerpColor c0 c1 ((t - p0) / (p1 - p0))
    else gradientGetAux p1 c1 rest t

/-- Modelled from the spec: entry point of the gradient walk (clamp at or
below the first stop). -/
def gradientGet (stops : List (ℚ × LinSrgb)) (t : ℚ) : LinSrgb :=
  match stops with
  | [] => ⟨0, 0, 0⟩
  | (p0, c0) :: rest => if t ≤ p0 then c0 else gradientGetAux p0 c0 rest t

/-- Modelled from the spec: the `palette` crate's `Gradient::take(n)` yields
exactly `n` colors sampled at evenly spaced positions across the stop range
(spec section 4.3: the table is populated by sampling the gradient at evenly
spaced points). -/
def gradientTake (stops : List (ℚ × LinSrgb)) (n : ℕ) : List LinSrgb :=
  let lo := ((stops.head?).map Prod.fst).getD 0
  let hi := ((stops.getLast?).map Prod.fst).getD 0
  (List.range n).map fun i : ℕ =>
    gradientGet stops (lo + (hi - lo) * (i : ℚ) / ((n : ℚ) - 1))

/-- The five fixed rainbow gradient stops of `rainbow_palette`
(mandelbrot.rs lines 209-217). -/
def rainbowStops : List (ℚ × LinSrgb) :=
  [(0, ⟨1, 0, 0⟩), (0.05, ⟨0, 1, 0⟩), (0.5, ⟨0, 0, 1⟩),
   (1.5, ⟨0, 1, 0⟩), (2.5, ⟨1, 0, 0⟩)]

/-- `rainbow_palette(n_colors)` (mandelbrot.rs lines 209-217):
`Gradient::from(stops).take(n_colors).collect()`. -/
def rainbowPalette (nColors : ℕ) : List LinSrgb :=
  gradientTake rainbowStops nColors

/-- The filled random pool of `random_palette` (mandelbrot.rs lines 193-198):
`pool` starts as fifteen `0.0` entries and the loop `for i in 1..15` overwrites
entries `1` to `14` with successive draws from the random-number source
(modelled as the stream `stream`, whose values `gen_range(0.0..1.0)`
supplies).  Entry `0` is never overwritten. -/
def randomPool (stream : ℕ → ℚ) : List ℚ :=
  (List.range 15).map fun i => if i = 0 then 0 else stream (i - 1)

/-- The five gradient stops of `random_palette` (mandelbrot.rs lines 200-206):
each channel is `pool.pop().unwrap()`, i.e. the pool is consumed from its end,
three channels per stop, at the fixed positions `0.0, 0.1, 2.5, 6.0, 10.0`. -/
def randomStops (stream : ℕ → ℚ) : List (ℚ × LinSrgb) :=
  match (randomPool stream).reverse with
  | [a, b, c, d, e, f, g, h, i, j, k, l, m, n, o] =>
    [(0, ⟨a, b, c⟩), (0.1, ⟨d, e, f⟩), (2.5, ⟨g, h, i⟩),
     (6, ⟨j, k, l⟩), (10, ⟨m, n, o⟩)]
  | _ => []

/-- `random_palette(n_colors)` (mandelbrot.rs lines 192-207): gradient over
the popped random stops, sampled `n_colors` times. -/
def randomPalette (stream : ℕ → ℚ) (nColors : ℕ) : List LinSrgb :=
  gradientTake (randomStops stream) nColors

/-- The mutable orbit state of the escape loop in `test_pixel`
(mandelbrot.rs lines 256-294): current point `(x, y)`, its cached squares
`(x2, y2)`, the periodicity snapshot `(xOld, yOld)` and the `period`
counter. -/
structure OrbitState where
  x : ℝ
  y : ℝ
  x2 : ℝ
  y2 : ℝ
  xOld : ℝ
  yOld : ℝ
  period : ℕ

/-- Outcome of the escape loop: either the orbit never escaped within the
budget (periodicity hit or iteration cap, after `steps` iterations), or it
escaped after `iter` iterations with the final squares `x2`, `y2`. -/
inductive EscapeResult where
  | nonEscaping (steps : ℕ) : EscapeResult
  | escaped (iter : ℕ) (x2 y2 : ℝ) : EscapeResult

open Classical in
/-- The `while` loop of `test_pixel` (mandelbrot.rs lines 276-295) together
with the loop exit: while `x2 + y2 <= 4` and `iteration < max_iterations`,
advance `z ↦ z² + c`, bump the iteration count, return non-escaping if the
new point exactly equals the periodicity snapshot, and refresh the snapshot
every 21st pass (`period > 20`).  On exit, an iteration count still below the
cap means the orbit escaped (the smoothing branch of lines 297-302 applies);
otherwise the cap was reached.  `fuel` bounds the recursion; called with
`fuel = maxIter` it never runs out, because each pass increases `iter` and
the guard requires `iter < maxIter`. -/
noncomputable def escapeLoop (x0 y0 : ℝ) (maxIter : ℕ) :
    OrbitState → ℕ → ℕ → EscapeResult
  | st, iter, 0 =>
    if st.x2 + st.y2 ≤ 4 ∧ iter < maxIter then .nonEscaping iter
    else if iter < maxIter then .escaped iter st.x2 st.y2 else .nonEscaping iter
  | st, iter, fuel + 1 =>
    if st.x2 + st.y2 ≤ 4 ∧ iter < maxIter then
      let yNew := 2 * st.x * st.y + y0
      let xNew := st.x2 - st.y2 + x0
      let x2New := xNew ^ 2
      let y2New := yNew ^ 2
      let iterNew := iter + 1
      if xNew = st.xOld ∧ yNew = st.yOld then .nonEscaping iterNew
      else if 20 < st.period + 1 then
        escapeLoop x0 y0 maxIter ⟨xNew, yNew, x2New, y2New, xNew, yNew, 0⟩ iterNew fuel
      else
        escapeLoop x0 y0 maxIter
          ⟨xNew, yNew, x2New, y2New, st.xOld, st.yOld, st.period + 1⟩ iterNew fuel
    else if iter < maxIter then .escaped iter st.x2 st.y2 else .nonEscaping iter

/-- The renormalization term `nu` of the smoothing step
(mandelbrot.rs lines 298-300): `log_zn = log10(x2 + y2)`,
`log_2 = log10(2)`, `nu = log10(log_zn / log_2) / log_2`. -/
noncomputable def nuSmooth (x2 y2 : ℝ) : ℝ :=
  let logZn := Real.logb 10 (x2 + y2)
  let logTwo := Real.logb 10 2
  Real.logb 10 (logZn / logTwo) / logTwo

/-- The smoothed escape count `iteration + 1.0 - nu`
(mandelbrot.rs line 301). -/
noncomputable def smoothedCount (iter : ℕ) (x2 y2 : ℝ) : ℝ :=
  iter + 1 - nuSmooth x2 y2

/-- The main-cardioid interior test of `test_pixel` (mandelbrot.rs lines
264-266): with `p = sqrt((x0 - 0.25)² + y0²)`, interior iff
`x0 <= p - 2p² + 0.25`. -/
def cardioidTest (x0 y0 : ℝ) : Prop :=
  x0 ≤ Real.sqrt ((x0 - 0.25) ^ 2 + y0 ^ 2)
        - 2 * Real.sqrt ((x0 - 0.25) ^ 2 + y0 ^ 2) ^ 2 + 0.25

/-- The period-2-bulb interior test of `test_pixel` (mandelbrot.rs lines
267-269): `(x0 + 1)² + y0² <= 1/16`. -/
def bulbTest (x0 y0 : ℝ) : Prop :=
  (x0 + 1) ^ 2 + y0 ^ 2 ≤ 1 / 16

/-- The escape loop as run by `test_pixel` for a given pixel: orbit starting
from `x = y = x2 = y2 = 0`, snapshot `(0, 0)`, `period = 0`, `iteration = 0`
(mandelbrot.rs lines 256-273), with fuel `maxIter`. -/
noncomputable def pixelLoop (px py w h maxIter : ℕ)
    (xmin xmax ymin ymax : ℚ) : EscapeResult :=
  let c := toPlane px py w h xmin xmax ymin ymax
  escapeLoop (c.1 : ℝ) (c.2 : ℝ) maxIter ⟨0, 0, 0, 0, 0, 0, 0⟩ 0 maxIter

open Classical in
/-- `test_pixel` (mandelbrot.rs lines 229-305), instrumented with the number
of iterations of the quadratic recurrence that were performed: maps the pixel
to the plane, short-circuits on the cardioid and period-2-bulb tests
(returning `max_iterations` with zero iterations performed), otherwise runs
the escape loop and applies smoothing exactly when the exit iteration count
is below the cap. -/
noncomputable def testPixelFull (px py w h maxIter : ℕ)
    (xmin xmax ymin ymax : ℚ) : ℝ × ℕ :=
  let c := toPlane px py w h xmin xmax ymin ymax
  if cardioidTest (c.1 : ℝ) (c.2 : ℝ) then ((maxIter : ℝ), 0)
  else if bulbTest (c.1 : ℝ) (c.2 : ℝ) then ((maxIter : ℝ), 0)
  else
    match pixelLoop px py w h maxIter xmin xmax ymin ymax with
    | .nonEscaping steps => ((maxIter : ℝ), steps)
    | .escaped iter a b => (smoothedCount iter a b, iter)

/-- The value returned by `test_pixel` (mandelbrot.rs lines 229-305). -/
noncomputable def testPixel (px py w h maxIter : ℕ)
    (xmin xmax ymin ymax : ℚ) : ℝ :=
  (testPixelFull px py w h maxIter xmin xmax ymin ymax).1

/-- A pixel is classified non-escaping when `test_pixel` takes one of its
`return max_iterations` paths: cardioid interior, bulb interior, or the
escape loop ending without escape (periodic orbit or iteration cap). -/
noncomputable def nonEscapingClass (px py w h maxIter : ℕ)
    (xmin xmax ymin ymax : ℚ) : Prop :=
  let c := toPlane px py w h xmin xmax ymin ymax
  cardioidTest (c.1 : ℝ) (c.2 : ℝ) ∨ bulbTest (c.1 : ℝ) (c.2 : ℝ) ∨
    ∃ steps, pixelLoop px py w h maxIter xmin xmax ymin ymax = .nonEscaping steps

/-- The `MandelbrotSet` struct (mandelbrot.rs lines 8-22).  `max_iterations`
is stored as `f64` in the source but is the integer `1000.0`, converted with
`as usize` wherever it sizes the palette, so it is modelled as `ℕ`.  The
frame buffer is the RGBA byte array (bytes as `ℕ`). -/
structure MandelbrotSet where
  width : ℕ
  height : ℕ
  maxIterations : ℕ
  xScaleMin : ℚ
  xScaleMax : ℚ
  yScaleMin : ℚ
  yScaleMax : ℚ
  iterationCounts : List (List ℝ)
  frameBuffer : List ℕ
  palette : List LinSrgb
  recalculate : Bool
  redraw : Bool
  drawing : Bool

/-- `MandelbrotSet::new` (mandelbrot.rs lines 25-43): default plane bounds
`x ∈ [-2.00, 0.47]`, `y ∈ [-1.12, 1.12]` (the decimal literals are modelled
as exact rationals), a zeroed iteration grid, an all-`0xff` frame buffer of
`width * height * 4` bytes, the rainbow palette of `max_iterations = 1000`
colors, and both dirty flags set. -/
noncomputable def new (width height : ℕ) : MandelbrotSet :=
  { width := width
    height := height
    maxIterations := 1000
    xScaleMin := -2.00
    xScaleMax := 0.47
    yScaleMin := -1.12
    yScaleMax := 1.12
    iterationCounts := List.replicate height (List.replicate width (0 : ℝ))
    frameBuffer := List.replicate (width * height * 4) 0xff
    palette := rainbowPalette 1000
    recalculate := true
    redraw := true
    drawing := false }

/-- `randomize_palette` (mandelbrot.rs lines 49-52): replace the palette with
`random_palette(max_iterations as usize)` and mark redraw-dirty.  The global
`thread_rng` is modelled by the explicit sample stream. -/
noncomputable def randomizePalette (stream : ℕ → ℚ) (s : MandelbrotSet) :
    MandelbrotSet :=
  { s with palette := randomPalette stream s.maxIterations, redraw := true }

/-- `x_range` (mandelbrot.rs lines 54-56): `(x_scale_max - x_scale_min).abs()`. -/
def xRange (s : MandelbrotSet) : ℚ :=
  |s.xScaleMax - s.xScaleMin|

/-- `y_range` (mandelbrot.rs lines 58-60): `(y_scale_max - y_scale_min).abs()`. -/
def yRange (s : MandelbrotSet) : ℚ :=
  |s.yScaleMax - s.yScaleMin|

/-- `resize_scaling_factors` (mandelbrot.rs lines 66-81): per axis, the range
grows by `(ratio * range) - range`, split evenly on both ends, where `ratio`
is the new dimension over the old one. -/
def resizeScalingFactors (s : MandelbrotSet) (width height : ℕ) :
    MandelbrotSet :=
  let xRatio : ℚ := (width : ℚ) / (s.width : ℚ)
  let yRatio : ℚ := (height : ℚ) / (s.height : ℚ)
  let xr := xRange s
  let yr := yRange s
  let newXRangeDiff := xRatio * xr - xr
  let newYRangeDiff := yRatio * yr - yr
  { s with
    xScaleMin := s.xScaleMin - newXRangeDiff / 2
    xScaleMax := s.xScaleMax + newXRangeDiff / 2
    yScaleMin := s.yScaleMin - newYRangeDiff / 2
    yScaleMax := s.yScaleMax + newYRangeDiff / 2 }

/-- `resize` (mandelbrot.rs lines 83-91): rescale the bounds with the old
dimensions, then store the new dimensions, reallocate the frame buffer and
mark both flags dirty.  The iteration grid is not touched. -/
def resize (s : MandelbrotSet) (width height : ℕ) : MandelbrotSet :=
  let s' := resizeScalingFactors s width height
  { s' with
    width := width
    height := height
    frameBuffer := List.replicate (width * height * 4) 0xff
    recalculate := true
    redraw := true }

/-- `zoom` (mandelbrot.rs lines 93-123): scale both ranges by `factor`,
recenter on the plane point of the pixel coordinates (note: normalized over
the full `width`/`height`, not `width - 1`), and mark both flags dirty.
The `f32` mouse coordinates are modelled as rationals. -/
def zoom (s : MandelbrotSet) (coords : ℚ × ℚ) (factor : ℚ) : MandelbrotSet :=
  let newXRange := xRange s * factor
  let newYRange := yRange s * factor
  let newMidpointX := normalize coords.1 0 (s.width : ℚ) s.xScaleMin s.xScaleMax
  let newMidpointY := normalize coords.2 0 (s.height : ℚ) s.yScaleMin s.yScaleMax
  { s with
    xScaleMin := newMidpointX - newXRange / 2
    xScaleMax := newMidpointX + newXRange / 2
    yScaleMin := newMidpointY - newYRange / 2
    yScaleMax := newMidpointY + newYRange / 2
    recalculate := true
    redraw := true }

open Classical in
/-- Rust's `%` on floats keeps the sign of the dividend: `v % 1.0` is
`v - trunc(v)`, i.e. `v - ⌊v⌋` for nonnegative `v` and `v - ⌈v⌉` otherwise
(`fraction` in mandelbrot.rs line 177). -/
noncomputable def rustRem1 (v : ℝ) : ℝ :=
  if 0 ≤ v then v - ⌊v⌋ else v - ⌈v⌉

open Classical in
/-- A float-to-`u8` saturating cast of a channel scaled by `0xff`, from
`color_to_rgba` (mandelbrot.rs lines 219-226): truncate toward zero and clamp
into `[0, 255]`. -/
noncomputable def byteOf (c : ℝ) : ℕ :=
  min (Int.toNat ⌊c * 255⌋) 255

open Classical in
/-- The two-stop gradient `Gradient::from([(0.0, color1), (1.0, color2)])
.get(fraction)` used per pixel in `draw_to_frame_buffer` (mandelbrot.rs lines
182-185): clamp below `0` and above `1`, interpolate linearly in between. -/
noncomputable def gradientGet2 (c1 c2 : LinSrgb) (f : ℝ) : ℝ × ℝ × ℝ :=
  if f ≤ 0 then ((c1.red : ℝ), (c1.green : ℝ), (c1.blue : ℝ))
  else if 1 ≤ f then ((c2.red : ℝ), (c2.green : ℝ), (c2.blue : ℝ))
  else ((c1.red : ℝ) + ((c2.red : ℝ) - (c1.red : ℝ)) * f,
        (c1.green : ℝ) + ((c2.green : ℝ) - (c1.green : ℝ)) * f,
        (c1.blue : ℝ) + ((c2.blue : ℝ) - (c1.blue : ℝ)) * f)

open Classical in
/-- The RGBA bytes of the pixel at chunk index `i` in `draw_to_frame_buffer`
(mandelbrot.rs lines 169-188): black for counts that hit `max_iterations`,
otherwise the two palette entries at `floor(count)` and `floor(count) + 1`
blended by the fractional part.  Rust's `as usize` on a float saturates
negative values to `0`, hence `Int.toNat ∘ floor`; out-of-range palette
indexing (a Rust panic) is modelled by `getD` with a black default. -/
noncomputable def pixelBytes (s : MandelbrotSet) (i : ℕ) : List ℕ :=
  let x := i % s.width
  let y := i / s.width
  let count := (s.iterationCounts.getD y []).getD x 0
  if count = (s.maxIterations : ℝ) then [0, 0, 0, 0xff]
  else
    let iterations := Int.toNat ⌊count⌋
    let fraction := rustRem1 count
    let color1 := s.palette.getD iterations ⟨0, 0, 0⟩
    let color2 := s.palette.getD (iterations + 1) ⟨0, 0, 0⟩
    let rgb := gradientGet2 color1 color2 fraction
    [byteOf rgb.1, byteOf rgb.2.1, byteOf rgb.2.2, 0xff]

/-- `draw_to_frame_buffer` (mandelbrot.rs lines 168-190): rewrite the frame
buffer chunkwise (`chunks_exact_mut(4)` walks `len / 4` whole chunks; any
trailing remainder bytes are left as they were). -/
noncomputable def drawToFrameBuffer (s : MandelbrotSet) : List ℕ :=
  (List.range (s.frameBuffer.length / 4)).flatMap (pixelBytes s) ++
    s.frameBuffer.drop (s.frameBuffer.length / 4 * 4)

/-- The iteration-field recomputation inside `draw` (mandelbrot.rs lines
132-152): a fresh `height × width` grid where entry `(y, x)` is
`test_pixel(x, y, …)` on the current viewport. -/
noncomputable def computeField (s : MandelbrotSet) : List (List ℝ) :=
  (List.range s.height).map fun y =>
    (List.range s.width).map fun x =>
      testPixel x y s.width s.height s.maxIterations
        s.xScaleMin s.xScaleMax s.yScaleMin s.yScaleMax

/-- The observable phases of one `draw` call, in execution order:
recomputing the iteration field, recomposing the frame buffer, and copying
the cached buffer into the caller's frame. -/
inductive Action where
  | recalc : Action
  | redraw : Action
  | copyOut : Action
deriving DecidableEq

/-- The `if self.recalculate` phase of `draw` (mandelbrot.rs lines 129-153):
clear the flag and rebuild the iteration grid, recording the action. -/
noncomputable def drawRecalcPhase (s : MandelbrotSet) :
    MandelbrotSet × List Action :=
  if s.recalculate then
    ({ s with recalculate := false, iterationCounts := computeField s },
     [Action.recalc])
  else (s, [])

/-- The `if self.redraw` phase of `draw` (mandelbrot.rs lines 155-158):
clear the flag and recompose the frame buffer, recording the action. -/
noncomputable def drawRedrawPhase (s : MandelbrotSet) :
    MandelbrotSet × List Action :=
  if s.redraw then
    ({ s with redraw := false, frameBuffer := drawToFrameBuffer s },
     [Action.redraw])
  else (s, [])

/-- `draw` (mandelbrot.rs lines 126-163): set the reentrancy guard, resolve
the recalc flag, then the redraw flag, copy the cached frame buffer out, and
drop the guard.  Returns the final state, the bytes copied into the caller's
frame, and the ordered list of performed actions. -/
noncomputable def draw (s : MandelbrotSet) :
    MandelbrotSet × List ℕ × List Action :=
  let s0 := { s with drawing := true }
  let r1 := drawRecalcPhase s0
  let r2 := drawRedrawPhase r1.1
  ({ r2.1 with drawing := false }, r2.1.frameBuffer,
   r1.2 ++ r2.2 ++ [Action.copyOut])

/-- The iteration field is a grid of exactly `height` rows of exactly `width`
entries, matching the viewport's pixel dimensions (spec section 3, Iteration
Field). -/
def fieldMatches (s : MandelbrotSet) : Prop :=
  s.iterationCounts.length = s.height ∧
    ∀ row ∈ s.iterationCounts, row.length = s.width

lemma nuSmooth_eq_logb (a b : ℝ) :
    nuSmooth a b = Real.logb 2 (Real.logb 2 (a + b)) := by
  have h10 : Real.log 10 ≠ 0 := ne_of_gt (Real.log_pos (by norm_num))
  have h2 : Real.log 2 ≠ 0 := ne_of_gt (Real.log_pos (by norm_num))
  have key : ∀ u : ℝ, u / Real.log 10 / (Real.log 2 / Real.log 10) = u / Real.log 2 := by
    intro u
    field_simp
  simp only [nuSmooth, Real.logb]
  rw [key (Real.log (a + b)),
    key (Real.log (Real.log (a + b) / Real.log 2))]

lemma one_lt_nuSmooth (a b : ℝ) (h : 4 < a + b) : 1 < nuSmooth a b := by
  rw [nuSmooth_eq_logb]
  have h4 : Real.logb 2 4 = 2 := by
    rw [show (4 : ℝ) = 2 ^ (2 : ℕ) by norm_num, Real.logb_pow,
      Real.logb_self_eq_one (by norm_num)]
    norm_num
  have hlb : (2 : ℝ) < Real.logb 2 (a + b) := by
    calc (2 : ℝ) = Real.logb 2 4 := h4.symm
    _ < Real.logb 2 (a + b) := Real.logb_lt_logb (by norm_num) (by norm_num) h
  calc (1 : ℝ) = Real.logb 2 2 := (Real.logb_self_eq_one (by norm_num)).symm
  _ < Real.logb 2 (Real.logb 2 (a + b)) :=
    Real.logb_lt_logb (by norm_num) (by norm_num) hlb

lemma smoothedCount_lt (iter : ℕ) (a b : ℝ) (h : 4 < a + b) :
    smoothedCount iter a b < iter := by
  have := one_lt_nuSmooth a b h
  simp only [smoothedCount]
  linarith

lemma escapeLoop_escaped (x0 y0 : ℝ) (maxIter : ℕ) :
    ∀ fuel st iter n a b,
      escapeLoop x0 y0 maxIter st iter fuel = .escaped n a b →
      n < maxIter ∧ 4 < a + b := by
  intro fuel
  induction fuel with
  | zero =>
    intro st iter n a b h
    simp only [escapeLoop] at h
    split at h
    · exact (EscapeResult.noConfusion h)
    · next hguard =>
      split at h
      · next hlt =>
        cases h
        refine ⟨hlt, ?_⟩
        by_contra hle
        exact hguard ⟨by linarith, hlt⟩
      · exact (EscapeResult.noConfusion h)
  | succ fuel ih =>
    intro st iter n a b h
    simp only [escapeLoop] at h
    split at h
    · split at h
      · exact (EscapeResult.noConfusion h)
      · split at h
        · exact ih _ _ _ _ _ h
        · exact ih _ _ _ _ _ h
    · next hguard =>
      split at h
      · next hlt =>
        cases h
        refine ⟨hlt, ?_⟩
        by_contra hle
        exact hguard ⟨by linarith, hlt⟩
      · exact (EscapeResult.noConfusion h)

lemma testPixel_escaped_of_lt (px py w h maxIter : ℕ)
    (xmin xmax ymin ymax : ℚ)
    (hlt : testPixel px py w h maxIter xmin xmax ymin ymax < (maxIter : ℝ)) :
    ∃ n a b, pixelLoop px py w h maxIter xmin xmax ymin ymax = .escaped n a b ∧
      testPixel px py w h maxIter xmin xmax ymin ymax = smoothedCount n a b ∧
      n < maxIter ∧ 4 < a + b := by
  by_cases hc : cardioidTest ((toPlane px py w h xmin xmax ymin ymax).1 : ℝ)
      ((toPlane px py w h xmin xmax ymin ymax).2 : ℝ)
  · exfalso
    have : testPixel px py w h maxIter xmin xmax ymin ymax = (maxIter : ℝ) := by
      simp [testPixel, testPixelFull, hc]
    rw [this] at hlt
    exact lt_irrefl _ hlt
  by_cases hb : bulbTest ((toPlane px py w h xmin xmax ymin ymax).1 : ℝ)
      ((toPlane px py w h xmin xmax ymin ymax).2 : ℝ)
  · exfalso
    have : testPixel px py w h maxIter xmin xmax ymin ymax = (maxIter : ℝ) := by
      simp [testPixel, testPixelFull, hc, hb]
    rw [this] at hlt
    exact lt_irrefl _ hlt
  cases hloop : pixelLoop px py w h maxIter xmin xmax ymin ymax with
  | nonEscaping steps =>
    exfalso
    have hv : testPixel px py w h maxIter xmin xmax ymin ymax = (maxIter : ℝ) := by
      simp [testPixel, testPixelFull, hc, hb, hloop]
    rw [hv] at hlt
    exact lt_irrefl _ hlt
  | escaped n a b =>
    have hval : testPixel px py w h maxIter xmin xmax ymin ymax = smoothedCount n a b := by
      simp [testPixel, testPixelFull, hc, hb, hloop]
    have hesc : escapeLoop ((toPlane px py w h xmin xmax ymin ymax).1 : ℝ)
        ((toPlane px py w h xmin xmax ymin ymax).2 : ℝ) maxIter
        ⟨0, 0, 0, 0, 0, 0, 0⟩ 0 maxIter = .escaped n a b := by
      simpa [pixelLoop] using hloop
    obtain ⟨hn, hab⟩ := escapeLoop_escaped _ _ _ _ _ _ _ _ _ hesc
    exact ⟨n, a, b, rfl, hval, hn, hab⟩

lemma escapeLoop_exit (x0 y0 : ℝ) (maxIter : ℕ) (st : OrbitState)
    (iter fuel : ℕ) (hgt : ¬ (st.x2 + st.y2 ≤ 4)) (hlt : iter < maxIter) :
    escapeLoop x0 y0 maxIter st iter fuel = .escaped iter st.x2 st.y2 := by
  cases fuel <;> simp only [escapeLoop] <;>
    rw [if_neg (fun hand => hgt hand.1), if_pos hlt]

lemma escapeLoop_step (x0 y0 : ℝ) (maxIter : ℕ) (st : OrbitState)
    (iter fuel : ℕ) (hguard : st.x2 + st.y2 ≤ 4 ∧ iter < maxIter)
    (hper : ¬ (st.x2 - st.y2 + x0 = st.xOld ∧ 2 * st.x * st.y + y0 = st.yOld))
    (hp : ¬ (20 < st.period + 1)) :
    escapeLoop x0 y0 maxIter st iter (fuel + 1) =
      escapeLoop x0 y0 maxIter
        ⟨st.x2 - st.y2 + x0, 2 * st.x * st.y + y0,
         (st.x2 - st.y2 + x0) ^ 2, (2 * st.x * st.y + y0) ^ 2,
         st.xOld, st.yOld, st.period + 1⟩ (iter + 1) fuel := by
  simp only [escapeLoop]
  rw [if_pos hguard, if_neg hper, if_neg hp]

lemma testPixelFull_escaped (px py w h maxIter : ℕ) (xmin xmax ymin ymax : ℚ)
    (hc : ¬ cardioidTest ((toPlane px py w h xmin xmax ymin ymax).1 : ℝ)
        ((toPlane px py w h xmin xmax ymin ymax).2 : ℝ))
    (hb : ¬ bulbTest ((toPlane px py w h xmin xmax ymin ymax).1 : ℝ)
        ((toPlane px py w h xmin xmax ymin ymax).2 : ℝ))
    (n : ℕ) (a b : ℝ)
    (hloop : pixelLoop px py w h maxIter xmin xmax ymin ymax = .escaped n a b) :
    testPixelFull px py w h maxIter xmin xmax ymin ymax =
      (smoothedCount n a b, n) := by
  simp [testPixelFull, hc, hb, hloop]

lemma exampleLoop_eval :
    escapeLoop (-100) 0 1000 ⟨0, 0, 0, 0, 0, 0, 0⟩ 0 1000 =
      .escaped 1 10000 0 := by
  have hstep := escapeLoop_step (-100) 0 1000 ⟨0, 0, 0, 0, 0, 0, 0⟩ 0 999
    ⟨by norm_num, by norm_num⟩
    (by rintro ⟨h1, h2⟩; norm_num at h1)
    (by norm_num)
  have hgoal : escapeLoop (-100) 0 1000 ⟨0, 0, 0, 0, 0, 0, 0⟩ 0 (999 + 1) =
      .escaped 1 10000 0 := by
    rw [hstep, escapeLoop_exit _ _ _ _ _ _ (by norm_num) (by norm_num)]
    simp only [EscapeResult.escaped.injEq]
    norm_num
  exact hgoal

lemma examplePlane : toPlane 0 0 2 2 (-100) 100 0 1 = (-100, 0) := by
  norm_num [toPlane, normalize]

lemma exampleCard : ¬ cardioidTest ((toPlane 0 0 2 2 (-100) 100 0 1).1 : ℝ)
    ((toPlane 0 0 2 2 (-100) 100 0 1).2 : ℝ) := by
  rw [examplePlane]
  have hsqrt : Real.sqrt (((-100 : ℝ) - 0.25) ^ 2 + (0 : ℝ) ^ 2) = 100.25 := by
    rw [show ((-100 : ℝ) - 0.25) ^ 2 + (0 : ℝ) ^ 2 = 100.25 ^ 2 by norm_num]
    exact Real.sqrt_sq (by norm_num)
  push_cast
  simp only [cardioidTest, hsqrt]
  norm_num

lemma exampleBulb : ¬ bulbTest ((toPlane 0 0 2 2 (-100) 100 0 1).1 : ℝ)
    ((toPlane 0 0 2 2 (-100) 100 0 1).2 : ℝ) := by
  rw [examplePlane]
  push_cast
  simp only [bulbTest]
  norm_num

lemma examplePixelLoop :
    pixelLoop 0 0 2 2 1000 (-100) 100 0 1 = .escaped 1 10000 0 := by
  simp only [pixelLoop, examplePlane]
  push_cast
  exact exampleLoop_eval

lemma examplePixel_eval :
    testPixel 0 0 2 2 1000 (-100) 100 0 1 = smoothedCount 1 10000 0 := by
  simp only [testPixel]
  rw [testPixelFull_escaped 0 0 2 2 1000 (-100) 100 0 1 exampleCard exampleBulb
    1 10000 0 examplePixelLoop]

lemma logb_two_four : Real.logb 2 4 = 2 := by
  rw [show (4 : ℝ) = 2 ^ (2 : ℕ) by norm_num, Real.logb_pow,
    Real.logb_self_eq_one (by norm_num)]
  norm_num

lemma logb_two_sixteen : Real.logb 2 16 = 4 := by
  rw [show (16 : ℝ) = 2 ^ (4 : ℕ) by norm_num, Real.logb_pow,
    Real.logb_self_eq_one (by norm_num)]
  norm_num

lemma examplePixel_neg : testPixel 0 0 2 2 1000 (-100) 100 0 1 < 0 := by
  rw [examplePixel_eval]
  simp only [smoothedCount, nuSmooth_eq_logb]
  have h1 : (4 : ℝ) < Real.logb 2 (10000 + 0) := by
    calc (4 : ℝ) = Real.logb 2 16 := logb_two_sixteen.symm
    _ < Real.logb 2 (10000 + 0) :=
      Real.logb_lt_logb (by norm_num) (by norm_num) (by norm_num)
  have h2 : (2 : ℝ) < Real.logb 2 (Real.logb 2 (10000 + 0)) := by
    calc (2 : ℝ) = Real.logb 2 4 := logb_two_four.symm
    _ < Real.logb 2 (Real.logb 2 (10000 + 0)) :=
      Real.logb_lt_logb (by norm_num) (by norm_num) h1
  push_cast
  linarith

lemma rainbowPalette_length (n : ℕ) : (rainbowPalette n).length = n := by
  simp only [rainbowPalette, gradientTake]
  rw [List.length_map, List.length_range]

lemma testPixel_eq_of_class (px py w h maxIter : ℕ) (xmin xmax ymin ymax : ℚ)
    (hclass : nonEscapingClass px py w h maxIter xmin xmax ymin ymax) :
    testPixel px py w h maxIter xmin xmax ymin ymax = (maxIter : ℝ) := by
  have hclass' : cardioidTest ((toPlane px py w h xmin xmax ymin ymax).1 : ℝ)
      ((toPlane px py w h xmin xmax ymin ymax).2 : ℝ) ∨
      bulbTest ((toPlane px py w h xmin xmax ymin ymax).1 : ℝ)
        ((toPlane px py w h xmin xmax ymin ymax).2 : ℝ) ∨
      ∃ steps, pixelLoop px py w h maxIter xmin xmax ymin ymax =
        .nonEscaping steps := hclass
  by_cases hc : cardioidTest ((toPlane px py w h xmin xmax ymin ymax).1 : ℝ)
      ((toPlane px py w h xmin xmax ymin ymax).2 : ℝ)
  · simp [testPixel, testPixelFull, hc]
  by_cases hb : bulbTest ((toPlane px py w h xmin xmax ymin ymax).1 : ℝ)
      ((toPlane px py w h xmin xmax ymin ymax).2 : ℝ)
  · simp [testPixel, testPixelFull, hc, hb]
  rcases hclass' with h | h | ⟨steps, hloop⟩
  · exact absurd h hc
  · exact absurd h hb
  · simp [testPixel, testPixelFull, hc, hb, hloop]

lemma testPixel_escaped_of_not_class (px py w h maxIter : ℕ)
    (xmin xmax ymin ymax : ℚ)
    (hnc : ¬ nonEscapingClass px py w h maxIter xmin xmax ymin ymax) :
    ∃ n a b, pixelLoop px py w h maxIter xmin xmax ymin ymax = .escaped n a b ∧
      testPixel px py w h maxIter xmin xmax ymin ymax = smoothedCount n a b ∧
      n < maxIter ∧ 4 < a + b := by
  have hc : ¬ cardioidTest ((toPlane px py w h xmin xmax ymin ymax).1 : ℝ)
      ((toPlane px py w h xmin xmax ymin ymax).2 : ℝ) :=
    fun hcl => hnc (Or.inl hcl)
  have hb : ¬ bulbTest ((toPlane px py w h xmin xmax ymin ymax).1 : ℝ)
      ((toPlane px py w h xmin xmax ymin ymax).2 : ℝ) :=
    fun hbl => hnc (Or.inr (Or.inl hbl))
  cases hloop : pixelLoop px py w h maxIter xmin xmax ymin ymax with
  | nonEscaping steps =>
    exact absurd (show nonEscapingClass px py w h maxIter xmin xmax ymin ymax
      from Or.inr (Or.inr ⟨steps, hloop⟩)) hnc
  | escaped n a b =>
    have hval : testPixel px py w h maxIter xmin xmax ymin ymax =
        smoothedCount n a b := by
      simp [testPixel, testPixelFull, hc, hb, hloop]
    have hesc : escapeLoop ((toPlane px py w h xmin xmax ymin ymax).1 : ℝ)
        ((toPlane px py w h xmin xmax ymin ymax).2 : ℝ) maxIter
        ⟨0, 0, 0, 0, 0, 0, 0⟩ 0 maxIter = .escaped n a b := by
      simpa [pixelLoop] using hloop
    obtain ⟨hn, hab⟩ := escapeLoop_escaped _ _ _ _ _ _ _ _ _ hesc
    exact ⟨n, a, b, rfl, hval, hn, hab⟩

/-- Claim C2 (amended): for every pixel coordinate and every viewport,
`test_pixel` returns a value that is at most `max_iterations`; the value
equals `max_iterations` exactly when the point is classified non-escaping
(cardioid/bulb interior, periodic orbit, or iteration cap reached); any value
strictly below `max_iterations` is the smoothed escape count of the escape
loop.  (The original claim's lower bound `0 ≤ value` is false: smoothed
escape counts can be negative, see the counterexample.) -/
theorem claim2_value_range (px py w h maxIter : ℕ) (xmin xmax ymin ymax : ℚ) :
    testPixel px py w h maxIter xmin xmax ymin ymax ≤ (maxIter : ℝ) ∧
    (testPixel px py w h maxIter xmin xmax ymin ymax = (maxIter : ℝ) ↔
      nonEscapingClass px py w h maxIter xmin xmax ymin ymax) ∧
    (testPixel px py w h maxIter xmin xmax ymin ymax < (maxIter : ℝ) →
      ∃ n a b,
        pixelLoop px py w h maxIter xmin xmax ymin ymax = .escaped n a b ∧
        testPixel px py w h maxIter xmin xmax ymin ymax = smoothedCount n a b ∧
        n < maxIter) := by
  by_cases hclass : nonEscapingClass px py w h maxIter xmin xmax ymin ymax
  · have hval := testPixel_eq_of_class px py w h maxIter xmin xmax ymin ymax hclass
    refine ⟨le_of_eq hval, ⟨fun _ => hclass, fun _ => hval⟩, fun hlt => ?_⟩
    rw [hval] at hlt
    exact absurd hlt (lt_irrefl _)
  · obtain ⟨n, a, b, hloop, hval, hn, hab⟩ :=
      testPixel_escaped_of_not_class px py w h maxIter xmin xmax ymin ymax hclass
    have hlt : testPixel px py w h maxIter xmin xmax ymin ymax < (maxIter : ℝ) := by
      have h1 : testPixel px py w h maxIter xmin xmax ymin ymax < (n : ℝ) := by
        rw [hval]
        exact smoothedCount_lt n a b hab
      have h2 : (n : ℝ) ≤ (maxIter : ℝ) := by exact_mod_cast le_of_lt hn
      linarith
    exact ⟨le_of_lt hlt,
      ⟨fun heq => absurd heq (ne_of_lt hlt), fun hcl => absurd hcl hclass⟩,
      fun _ => ⟨n, a, b, hloop, hval, hn⟩⟩

/-- Claim C2, counterexample to the claimed lower bound `0`: at the pixel
`(0, 0)` of a `2 × 2` grid over the viewport `x ∈ [-100, 100]`,
`y ∈ [0, 1]`, the plane point is `c = (-100, 0)`, the orbit escapes on the
first iteration with `x2 + y2 = 10000`, and the smoothed value
`1 + 1 - log2(log2(10000))` is negative — outside the claimed interval
`[0, max_iterations]`. -/
theorem claim2_counterexample :
    testPixel 0 0 2 2 1000 (-100) 100 0 1 < 0 :=
  examplePixel_neg

/-- Claim C2, witness: the amended theorem applied at the concrete escaping
pixel, discharging the hypothesis of its third conjunct. -/
theorem claim2_witness :
    testPixel 0 0 2 2 1000 (-100) 100 0 1 < ((1000 : ℕ) : ℝ) ∧
    ∃ n a b, pixelLoop 0 0 2 2 1000 (-100) 100 0 1 = .escaped n a b ∧
      testPixel 0 0 2 2 1000 (-100) 100 0 1 = smoothedCount n a b ∧
      n < 1000 := by
  have hlt : testPixel 0 0 2 2 1000 (-100) 100 0 1 < ((1000 : ℕ) : ℝ) :=
    lt_trans examplePixel_neg (by norm_num)
  exact ⟨hlt, (claim2_value_range 0 0 2 2 1000 (-100) 100 0 1).2.2 hlt⟩

/-- Claim C1 (amended): the palette lookup table built by `rainbow_palette`
has exactly `max_iterations` entries (not `max_iterations + 1`).  Both
`palette[floor(v)]` and `palette[floor(v) + 1]` are in-bounds indices for
every smoothed value `v` with `0 ≤ v < max_iterations - 1`, and every value
the evaluator produces strictly below `max_iterations` is in fact strictly
below `max_iterations - 1`, so frame compositing never indexes out of
bounds on evaluator output. -/
theorem claim1_palette_size (n : ℕ) :
    (rainbowPalette n).length = n ∧
    (∀ v : ℝ, 0 ≤ v → v < (n : ℝ) - 1 →
      Int.toNat ⌊v⌋ < n ∧ Int.toNat ⌊v⌋ + 1 < n) ∧
    (∀ px py w h : ℕ, ∀ xmin xmax ymin ymax : ℚ,
      testPixel px py w h n xmin xmax ymin ymax < (n : ℝ) →
      testPixel px py w h n xmin xmax ymin ymax < (n : ℝ) - 1) := by
  refine ⟨rainbowPalette_length n, ?_, ?_⟩
  · intro v h0 hlt
    have hfl : (0 : ℤ) ≤ ⌊v⌋ := Int.floor_nonneg.mpr h0
    have hup : ⌊v⌋ < (n : ℤ) - 1 := by
      apply Int.floor_lt.mpr
      push_cast
      linarith
    omega
  · intro px py w h xmin xmax ymin ymax hlt
    obtain ⟨m, a, b, hloop, hval, hm, hab⟩ :=
      testPixel_escaped_of_lt px py w h n xmin xmax ymin ymax hlt
    have h1 : testPixel px py w h n xmin xmax ymin ymax < (m : ℝ) := by
      rw [hval]
      exact smoothedCount_lt m a b hab
    have h2 : (m : ℝ) + 1 ≤ (n : ℝ) := by exact_mod_cast hm
    linarith

/-- Claim C1, counterexample: the palette of the program's `max_iterations =
1000` has `1000` entries, not `1001`, and the index `floor(v) + 1` for the
hypothetical smoothed value `v = 999.5 < max_iterations` is out of bounds
for it. -/
theorem claim1_counterexample :
    (rainbowPalette 1000).length ≠ 1000 + 1 ∧
    ¬ (Int.toNat ⌊(1999 / 2 : ℝ)⌋ + 1 < (rainbowPalette 1000).length) := by
  have hlen : (rainbowPalette 1000).length = 1000 := rainbowPalette_length 1000
  have hfl : ⌊(1999 / 2 : ℝ)⌋ = 999 := by
    apply Int.floor_eq_iff.mpr
    constructor <;> norm_num
  constructor
  · rw [hlen]
    norm_num
  · rw [hlen, hfl]
    omega

/-- Claim C1, witness: the amended theorem applied at `n = 1000`, to the
in-range smoothed value `v = 3.5` and to the concrete escaping pixel. -/
theorem claim1_witness :
    (0 : ℝ) ≤ 7 / 2 ∧ (7 / 2 : ℝ) < ((1000 : ℕ) : ℝ) - 1 ∧
    (Int.toNat ⌊(7 / 2 : ℝ)⌋ < 1000 ∧ Int.toNat ⌊(7 / 2 : ℝ)⌋ + 1 < 1000) ∧
    testPixel 0 0 2 2 1000 (-100) 100 0 1 < ((1000 : ℕ) : ℝ) ∧
    testPixel 0 0 2 2 1000 (-100) 100 0 1 < ((1000 : ℕ) : ℝ) - 1 := by
  have h := claim1_palette_size 1000
  have h0 : (0 : ℝ) ≤ 7 / 2 := by norm_num
  have h1 : (7 / 2 : ℝ) < ((1000 : ℕ) : ℝ) - 1 := by norm_num
  have hlt : testPixel 0 0 2 2 1000 (-100) 100 0 1 < ((1000 : ℕ) : ℝ) :=
    lt_trans examplePixel_neg (by norm_num)
  exact ⟨h0, h1, h.2.1 (7 / 2) h0 h1, hlt,
    h.2.2 0 0 2 2 (-100) 100 0 1 hlt⟩

/-- Claim C3: every pixel whose mapped plane point satisfies the cardioid
test or the period-2-bulb test makes `test_pixel` return exactly
`max_iterations` with zero iterations of the quadratic recurrence
performed. -/
theorem claim3_interior_short_circuit (px py w h maxIter : ℕ)
    (xmin xmax ymin ymax : ℚ)
    (hin : cardioidTest ((toPlane px py w h xmin xmax ymin ymax).1 : ℝ)
        ((toPlane px py w h xmin xmax ymin ymax).2 : ℝ) ∨
      bulbTest ((toPlane px py w h xmin xmax ymin ymax).1 : ℝ)
        ((toPlane px py w h xmin xmax ymin ymax).2 : ℝ)) :
    testPixelFull px py w h maxIter xmin xmax ymin ymax = ((maxIter : ℝ), 0) := by
  by_cases hc : cardioidTest ((toPlane px py w h xmin xmax ymin ymax).1 : ℝ)
      ((toPlane px py w h xmin xmax ymin ymax).2 : ℝ)
  · simp [testPixelFull, hc]
  · rcases hin with hcl | hbl
    · exact absurd hcl hc
    · simp [testPixelFull, hc, hbl]

/-- Claim C3, witness: the center pixel of a `3 × 3` grid over
`[-1, 1] × [-1, 1]` maps to `c = (0, 0)`, which passes the cardioid test,
and the evaluator returns `(max_iterations, 0)` there. -/
theorem claim3_witness :
    cardioidTest ((toPlane 1 1 3 3 (-1) 1 (-1) 1).1 : ℝ)
      ((toPlane 1 1 3 3 (-1) 1 (-1) 1).2 : ℝ) ∧
    testPixelFull 1 1 3 3 1000 (-1) 1 (-1) 1 = (((1000 : ℕ) : ℝ), 0) := by
  have hplane : toPlane 1 1 3 3 (-1) 1 (-1) 1 = (0, 0) := by
    norm_num [toPlane, normalize]
  have hcard : cardioidTest ((toPlane 1 1 3 3 (-1) 1 (-1) 1).1 : ℝ)
      ((toPlane 1 1 3 3 (-1) 1 (-1) 1).2 : ℝ) := by
    rw [hplane]
    push_cast
    have hs : Real.sqrt (((0 : ℝ) - 0.25) ^ 2 + (0 : ℝ) ^ 2) = 0.25 := by
      rw [show ((0 : ℝ) - 0.25) ^ 2 + (0 : ℝ) ^ 2 = 0.25 ^ 2 by norm_num]
      exact Real.sqrt_sq (by norm_num)
    simp only [cardioidTest, hs]
    norm_num
  exact ⟨hcard,
    claim3_interior_short_circuit 1 1 3 3 1000 (-1) 1 (-1) 1 (Or.inl hcard)⟩

/-- Claim C6: for every viewport with at least two pixels per axis (so that
the `width - 1`/`height - 1` denominators are nonzero; at `width = 1` the
Rust code divides `0.0` by `0.0`), the pixel-to-plane mapping sends pixel
`(0, 0)` exactly to `(x_min, y_min)` and pixel `(width - 1, height - 1)`
exactly to `(x_max, y_max)`. -/
theorem claim6_corner_mapping (w h : ℕ) (xmin xmax ymin ymax : ℚ)
    (hw : 2 ≤ w) (hh : 2 ≤ h) :
    toPlane 0 0 w h xmin xmax ymin ymax = (xmin, ymin) ∧
    toPlane (w - 1) (h - 1) w h xmin xmax ymin ymax = (xmax, ymax) := by
  have hwq : ((w - 1 : ℕ) : ℚ) ≠ 0 := Nat.cast_ne_zero.mpr (by omega)
  have hhq : ((h - 1 : ℕ) : ℚ) ≠ 0 := Nat.cast_ne_zero.mpr (by omega)
  constructor
  · simp [toPlane, normalize]
  · simp [toPlane, normalize, div_self hwq, div_self hhq, sub_add_cancel]

/-- Claim C6, witness: the corner mapping at the default 640 × 480 viewport. -/
theorem claim6_witness :
    toPlane 0 0 640 480 (-2) 0.47 (-1.12) 1.12 = (-2, -1.12) ∧
    toPlane (640 - 1) (480 - 1) 640 480 (-2) 0.47 (-1.12) 1.12 =
      (0.47, 1.12) :=
  claim6_corner_mapping 640 480 (-2) 0.47 (-1.12) 1.12 (by norm_num)
    (by norm_num)

/-- Claim C7: for every state with positive pixel dimensions, a valid
viewport (`x_min < x_max`, `y_min < y_max`) and positive target dimensions,
`resize(w, h)` followed by `resize(original_w, original_h)` restores all four
scale bounds exactly (in exact arithmetic; the Rust `f64` computation attains
this up to rounding). -/
theorem claim7_resize_round_trip (s : MandelbrotSet) (w h : ℕ)
    (hW : 0 < s.width) (hH : 0 < s.height) (hw : 0 < w) (hh : 0 < h)
    (hx : s.xScaleMin < s.xScaleMax) (hy : s.yScaleMin < s.yScaleMax) :
    (resize (resize s w h) s.width s.height).xScaleMin = s.xScaleMin ∧
    (resize (resize s w h) s.width s.height).xScaleMax = s.xScaleMax ∧
    (resize (resize s w h) s.width s.height).yScaleMin = s.yScaleMin ∧
    (resize (resize s w h) s.width s.height).yScaleMax = s.yScaleMax := by
  have hWq : (0 : ℚ) < (s.width : ℚ) := by exact_mod_cast hW
  have hHq : (0 : ℚ) < (s.height : ℚ) := by exact_mod_cast hH
  have hwq : (0 : ℚ) < (w : ℚ) := by exact_mod_cast hw
  have hhq : (0 : ℚ) < (h : ℚ) := by exact_mod_cast hh
  have hdx : (0 : ℚ) < s.xScaleMax - s.xScaleMin := by linarith
  have hdy : (0 : ℚ) < s.yScaleMax - s.yScaleMin := by linarith
  simp only [resize, resizeScalingFactors, xRange, yRange]
  rw [abs_of_pos hdx, abs_of_pos hdy]
  have hax : s.xScaleMax + ((w : ℚ) / (s.width : ℚ) * (s.xScaleMax - s.xScaleMin)
        - (s.xScaleMax - s.xScaleMin)) / 2
      - (s.xScaleMin - ((w : ℚ) / (s.width : ℚ) * (s.xScaleMax - s.xScaleMin)
        - (s.xScaleMax - s.xScaleMin)) / 2)
      = (w : ℚ) / (s.width : ℚ) * (s.xScaleMax - s.xScaleMin) := by ring
  have hay : s.yScaleMax + ((h : ℚ) / (s.height : ℚ) * (s.yScaleMax - s.yScaleMin)
        - (s.yScaleMax - s.yScaleMin)) / 2
      - (s.yScaleMin - ((h : ℚ) / (s.height : ℚ) * (s.yScaleMax - s.yScaleMin)
        - (s.yScaleMax - s.yScaleMin)) / 2)
      = (h : ℚ) / (s.height : ℚ) * (s.yScaleMax - s.yScaleMin) := by ring
  rw [hax, hay, abs_of_pos (mul_pos (div_pos hwq hWq) hdx),
    abs_of_pos (mul_pos (div_pos hhq hHq) hdy)]
  refine ⟨?_, ?_, ?_, ?_⟩ <;>
    · field_simp
      ring

/-- Claim C7, witness: the round-trip law at the start state of a 640 × 480
run resized to 320 × 200 and back. -/
theorem claim7_witness :
    0 < (new 640 480).width ∧ 0 < (new 640 480).height ∧ (0 : ℕ) < 320 ∧
    (0 : ℕ) < 200 ∧ (new 640 480).xScaleMin < (new 640 480).xScaleMax ∧
    (new 640 480).yScaleMin < (new 640 480).yScaleMax ∧
    (resize (resize (new 640 480) 320 200) (new 640 480).width
        (new 640 480).height).xScaleMin = (new 640 480).xScaleMin ∧
    (resize (resize (new 640 480) 320 200) (new 640 480).width
        (new 640 480).height).xScaleMax = (new 640 480).xScaleMax ∧
    (resize (resize (new 640 480) 320 200) (new 640 480).width
        (new 640 480).height).yScaleMin = (new 640 480).yScaleMin ∧
    (resize (resize (new 640 480) 320 200) (new 640 480).width
        (new 640 480).height).yScaleMax = (new 640 480).yScaleMax := by
  have h1 : 0 < (new 640 480).width := by norm_num [new]
  have h2 : 0 < (new 640 480).height := by norm_num [new]
  have h5 : (new 640 480).xScaleMin < (new 640 480).xScaleMax := by
    norm_num [new]
  have h6 : (new 640 480).yScaleMin < (new 640 480).yScaleMax := by
    norm_num [new]
  have h := claim7_resize_round_trip (new 640 480) 320 200 h1 h2
    (by norm_num) (by norm_num) h5 h6
  exact ⟨h1, h2, by norm_num, by norm_num, h5, h6, h.1, h.2.1, h.2.2.1, h.2.2.2⟩

/-- Claim C8: for every state with a valid viewport and every pixel-space
center, `zoom(center, 0.5)` followed by `zoom(center, 2.0)` restores both
axis ranges (`x_max - x_min` and `y_max - y_min`) exactly (in exact
arithmetic; the Rust `f64` computation attains this up to rounding). -/
theorem claim8_zoom_inverse (s : MandelbrotSet) (coords : ℚ × ℚ)
    (hx : s.xScaleMin < s.xScaleMax) (hy : s.yScaleMin < s.yScaleMax) :
    (zoom (zoom s coords 0.5) coords 2).xScaleMax
        - (zoom (zoom s coords 0.5) coords 2).xScaleMin
      = s.xScaleMax - s.xScaleMin ∧
    (zoom (zoom s coords 0.5) coords 2).yScaleMax
        - (zoom (zoom s coords 0.5) coords 2).yScaleMin
      = s.yScaleMax - s.yScaleMin := by
  have hdx : (0 : ℚ) < s.xScaleMax - s.xScaleMin := by linarith
  have hdy : (0 : ℚ) < s.yScaleMax - s.yScaleMin := by linarith
  simp only [zoom, xRange, yRange]
  rw [abs_of_pos hdx, abs_of_pos hdy]
  have hax : ∀ m r : ℚ, m + r * (0.5 : ℚ) / 2 - (m - r * (0.5 : ℚ) / 2)
      = r * (0.5 : ℚ) := by
    intro m r
    ring
  rw [hax, hax, abs_of_pos (by linarith : (0 : ℚ) < (s.xScaleMax - s.xScaleMin) * 0.5),
    abs_of_pos (by linarith : (0 : ℚ) < (s.yScaleMax - s.yScaleMin) * 0.5)]
  constructor <;> ring

/-- Claim C8, witness: the zoom inverse law at the start state, centered on
pixel `(200, 100)`. -/
theorem claim8_witness :
    (new 640 480).xScaleMin < (new 640 480).xScaleMax ∧
    (new 640 480).yScaleMin < (new 640 480).yScaleMax ∧
    (zoom (zoom (new 640 480) (200, 100) 0.5) (200, 100) 2).xScaleMax
        - (zoom (zoom (new 640 480) (200, 100) 0.5) (200, 100) 2).xScaleMin
      = (new 640 480).xScaleMax - (new 640 480).xScaleMin ∧
    (zoom (zoom (new 640 480) (200, 100) 0.5) (200, 100) 2).yScaleMax
        - (zoom (zoom (new 640 480) (200, 100) 0.5) (200, 100) 2).yScaleMin
      = (new 640 480).yScaleMax - (new 640 480).yScaleMin := by
  have h5 : (new 640 480).xScaleMin < (new 640 480).xScaleMax := by
    norm_num [new]
  have h6 : (new 640 480).yScaleMin < (new 640 480).yScaleMax := by
    norm_num [new]
  have h := claim8_zoom_inverse (new 640 480) (200, 100) h5 h6
  exact ⟨h5, h6, h.1, h.2⟩

/-- Claim C9: `randomize_palette` regenerates the palette from the random
recipe and sets only the redraw flag; the recalculate flag, the four scale
bounds, the pixel dimensions, the iteration field and the frame buffer are
all left unchanged. -/
theorem claim9_randomize_palette_frame (stream : ℕ → ℚ) (s : MandelbrotSet) :
    (randomizePalette stream s).palette = randomPalette stream s.maxIterations ∧
    (randomizePalette stream s).redraw = true ∧
    (randomizePalette stream s).recalculate = s.recalculate ∧
    (randomizePalette stream s).xScaleMin = s.xScaleMin ∧
    (randomizePalette stream s).xScaleMax = s.xScaleMax ∧
    (randomizePalette stream s).yScaleMin = s.yScaleMin ∧
    (randomizePalette stream s).yScaleMax = s.yScaleMax ∧
    (randomizePalette stream s).width = s.width ∧
    (randomizePalette stream s).height = s.height ∧
    (randomizePalette stream s).iterationCounts = s.iterationCounts ∧
    (randomizePalette stream s).frameBuffer = s.frameBuffer :=
  ⟨rfl, rfl, rfl, rfl, rfl, rfl, rfl, rfl, rfl, rfl, rfl⟩

/-- Claim C4: two successive `draw` calls with no intervening mutator fill
the output buffer with identical bytes; after the first call both dirty
flags are false; the second call performs no recomputation and no
recomposition (its action trace is just the buffer copy, and it leaves the
iteration field and frame buffer untouched); and within any single `draw`
call every recomputation action precedes every recomposition action. -/
theorem claim4_draw_idempotent (s : MandelbrotSet) :
    (draw (draw s).1).2.1 = (draw s).2.1 ∧
    (draw s).1.recalculate = false ∧
    (draw s).1.redraw = false ∧
    (draw (draw s).1).2.2 = [Action.copyOut] ∧
    (draw (draw s).1).1.iterationCounts = (draw s).1.iterationCounts ∧
    (draw (draw s).1).1.frameBuffer = (draw s).1.frameBuffer ∧
    (∀ t : MandelbrotSet, ∃ pre post, (draw t).2.2 = pre ++ post ∧
      Action.recalc ∉ post ∧ Action.redraw ∉ pre) := by
  refine ⟨?_, ?_, ?_, ?_, ?_, ?_, ?_⟩
  case _ => cases hr : s.recalculate <;> cases hd : s.redraw <;>
    simp [draw, drawRecalcPhase, drawRedrawPhase, hr, hd]
  case _ => cases hr : s.recalculate <;> cases hd : s.redraw <;>
    simp [draw, drawRecalcPhase, drawRedrawPhase, hr, hd]
  case _ => cases hr : s.recalculate <;> cases hd : s.redraw <;>
    simp [draw, drawRecalcPhase, drawRedrawPhase, hr, hd]
  case _ => cases hr : s.recalculate <;> cases hd : s.redraw <;>
    simp [draw, drawRecalcPhase, drawRedrawPhase, hr, hd]
  case _ => cases hr : s.recalculate <;> cases hd : s.redraw <;>
    simp [draw, drawRecalcPhase, drawRedrawPhase, hr, hd]
  case _ => cases hr : s.recalculate <;> cases hd : s.redraw <;>
    simp [draw, drawRecalcPhase, drawRedrawPhase, hr, hd]
  case _ =>
    intro t
    by_cases hr : t.recalculate <;> by_cases hd : t.redraw
    · exact ⟨[Action.recalc], [Action.redraw, Action.copyOut],
        by simp [draw, drawRecalcPhase, drawRedrawPhase, hr, hd], by simp, by simp⟩
    · exact ⟨[Action.recalc], [Action.copyOut],
        by simp [draw, drawRecalcPhase, drawRedrawPhase, hr, hd], by simp, by simp⟩
    · exact ⟨[], [Action.redraw, Action.copyOut],
        by simp [draw, drawRecalcPhase, drawRedrawPhase, hr, hd], by simp, by simp⟩
    · exact ⟨[], [Action.copyOut],
        by simp [draw, drawRecalcPhase, drawRedrawPhase, hr, hd], by simp, by simp⟩

/-- Claim C5 (amended): the iteration field matches the viewport's pixel
dimensions after `new` and after every `draw` whose input state either is
recalc-dirty or already matched; `zoom` and `randomize_palette` preserve the
match; `resize` marks the state recalc-dirty but leaves the old grid in
place (the original claim fails right after `resize`: the field keeps its
old dimensions until the next `draw` rebuilds it). -/
theorem claim5_field_dimensions :
    (∀ w h : ℕ, (new w h).recalculate = true ∧ fieldMatches (new w h)) ∧
    (∀ (s : MandelbrotSet) (coords : ℚ × ℚ) (factor : ℚ),
      fieldMatches s → fieldMatches (zoom s coords factor)) ∧
    (∀ (stream : ℕ → ℚ) (s : MandelbrotSet),
      fieldMatches s → fieldMatches (randomizePalette stream s)) ∧
    (∀ (s : MandelbrotSet) (w h : ℕ), (resize s w h).recalculate = true ∧
      (resize s w h).iterationCounts = s.iterationCounts) ∧
    (∀ s : MandelbrotSet,
      s.recalculate = true ∨ fieldMatches s → fieldMatches (draw s).1) := by
  refine ⟨?_, ?_, ?_, ?_, ?_⟩
  · intro w h
    refine ⟨rfl, by simp [new, fieldMatches], ?_⟩
    intro row hrow
    rw [List.eq_of_mem_replicate hrow]
    simp [new]
  · intro s coords factor hm
    exact ⟨hm.1, hm.2⟩
  · intro stream s hm
    exact ⟨hm.1, hm.2⟩
  · intro s w h
    exact ⟨rfl, rfl⟩
  · intro s hs
    by_cases hr : s.recalculate
    · constructor
      · cases hd : s.redraw <;>
          simp [draw, drawRecalcPhase, drawRedrawPhase, hr, hd, computeField]
      · intro row hrow
        have hrow' : row ∈ computeField { s with drawing := true } := by
          cases hd : s.redraw <;>
            simpa [draw, drawRecalcPhase, drawRedrawPhase, hr, hd] using hrow
        simp only [computeField, List.mem_map] at hrow'
        obtain ⟨y, _, hy⟩ := hrow'
        cases hd : s.redraw <;>
          simp [draw, drawRecalcPhase, drawRedrawPhase, hr, hd, ← hy]
    · have hm : fieldMatches s := by
        rcases hs with hs | hs
        · exact absurd hs (by simpa using hr)
        · exact hs
      constructor
      · cases hd : s.redraw <;>
          simp [draw, drawRecalcPhase, drawRedrawPhase, hr, hd, hm.1]
      · intro row hrow
        have hrow' : row ∈ s.iterationCounts := by
          cases hd : s.redraw <;>
            simpa [draw, drawRecalcPhase, drawRedrawPhase, hr, hd] using hrow
        have := hm.2 row hrow'
        cases hd : s.redraw <;>
          simp [draw, drawRecalcPhase, drawRedrawPhase, hr, hd, this]

/-- Claim C5, counterexample: starting from a fresh `2 × 2` state,
`resize(3, 3)` leaves the iteration field at its old `2 × 2` shape while the
viewport dimensions are already `3 × 3` — the claimed invariant fails right
after the public operation `resize`. -/
theorem claim5_counterexample : ¬ fieldMatches (resize (new 2 2) 3 3) := by
  intro hm
  have h1 := hm.1
  simp [resize, resizeScalingFactors, new, fieldMatches] at h1

/-- Claim C5, witness: the amended theorem applied at a fresh `2 × 3` state,
discharging the recalc-dirty hypothesis of the `draw` clause and the
match hypothesis of the `zoom` clause. -/
theorem claim5_witness :
    (new 2 3).recalculate = true ∧ fieldMatches (draw (new 2 3)).1 ∧
    fieldMatches (zoom (new 2 3) (1, 1) 2) := by
  have h := claim5_field_dimensions
  have h1 : (new 2 3).recalculate = true := rfl
  exact ⟨h1, h.2.2.2.2 (new 2 3) (Or.inl h1),
    h.2.1 (new 2 3) (1, 1) 2 (h.1 2 3).2⟩

/-- The explicit sample stream `1/100, 2/100, 3/100, …` used to exhibit the
random-palette counterexample: every supplied sample is nonzero. -/
def sampleStream : ℕ → ℚ :=
  fun j => (j + 1) / 100

/-- Claim C10, counterexample: with a random-number source all of whose
samples are nonzero, the blue channel of the last random gradient stop
(position `10.0`) is `0` — a value the source never supplied, because the
fill loop `for i in 1..15` never randomizes pool entry `0`. -/
theorem claim10_counterexample :
    (((randomStops sampleStream).getD 4 (0, ⟨0, 0, 0⟩)).2).blue = 0 ∧
    ∀ j, j < 14 → sampleStream j ≠ 0 := by
  constructor
  · rfl
  · intro j _
    have hpos : (0 : ℚ) < ((j : ℚ) + 1) / 100 := by positivity
    exact ne_of_gt hpos

/-- Claim C10 (amended): the five random gradient stops sit at the fixed
positions `0.0, 0.1, 2.5, 6.0, 10.0`; fourteen of the fifteen RGB channel
values are pairwise distinct draws from the random-number source (consumed
in pop order, i.e. draws `13, 12, …, 0`), but the blue channel of the last
stop is the constant `0`, never drawn from the source. -/
theorem claim10_random_channels (stream : ℕ → ℚ) :
    randomStops stream =
      [(0, ⟨stream 13, stream 12, stream 11⟩),
       (0.1, ⟨stream 10, stream 9, stream 8⟩),
       (2.5, ⟨stream 7, stream 6, stream 5⟩),
       (6, ⟨stream 4, stream 3, stream 2⟩),
       (10, ⟨stream 1, stream 0, 0⟩)] := by
  rfl

end VisionsOfMandelbrot
